import Mathlib

/-!
Shallow embedding of the PII detection-and-redaction engine of
`src/python_server/pdf_redactor.py` (class `PDFRedactor`).

Modelling conventions:
* Python floats become `ℚ`.  All confidence constants (1.0, 0.95, 0.9, 0.85)
  and coordinate arithmetic are exact in `ℚ`, and every comparison performed
  by the code compares values that are either equal literals or separated by
  far more than float rounding error, so the `ℚ` model is faithful.
* PyMuPDF `fitz.Rect` becomes the `Rect` structure below, with the library's
  component-wise tuple addition, `is_empty` (`x0 ≥ x1 or y0 ≥ y1`),
  `width` (`max (x1 - x0) 0`) and `intersects` (non-empty rectangles with a
  non-empty common rectangle).  The `is_infinite` escape hatch of the library
  cannot arise in this pipeline and is omitted.
* Python regexes are embedded as executable backtracking matchers (`RE`,
  `reMatch`, `findIter`) reproducing `re.finditer` / `re.search` semantics
  (leftmost match, greedy quantifier priority, non-overlapping continuation,
  word boundaries).  None of the program's patterns can match the empty
  string, so the zero-width-match corner of `finditer` never arises.
-/

unseal Rat.add Rat.mul Rat.inv Rat.sub

/-- Equality of `Except` values is decidable when both components' are. -/
instance {ε α : Type} [DecidableEq ε] [DecidableEq α] : DecidableEq (Except ε α) := fun a b =>
  match a, b with
  | Except.error x, Except.error y => decidable_of_iff (x = y) (by simp)
  | Except.error _, Except.ok _ => isFalse (by simp)
  | Except.ok _, Except.error _ => isFalse (by simp)
  | Except.ok x, Except.ok y => decidable_of_iff (x = y) (by simp)

namespace PdfRedactor

/-- RedactionType mirrors the `RedactionType` string enum of the source. -/
inductive RedactionType where
  | email
  | ssn
  | phone
  | credit_card
  deriving DecidableEq

/-- Value gives the underlying string of each `RedactionType` member. -/
def RedactionType.value : RedactionType → String
  | .email => "email"
  | .ssn => "ssn"
  | .phone => "phone"
  | .credit_card => "credit_card"

/-- Rect mirrors `fitz.Rect` with rational coordinates. -/
structure Rect where
  x0 : ℚ
  y0 : ℚ
  x1 : ℚ
  y1 : ℚ
  deriving DecidableEq

/-- Width of a rectangle, as PyMuPDF computes it (never negative). -/
def Rect.width (r : Rect) : ℚ := max (r.x1 - r.x0) 0

/-- PyMuPDF `Rect.is_empty`: true when the area is empty. -/
def Rect.is_empty (r : Rect) : Bool := decide (r.x0 ≥ r.x1 ∨ r.y0 ≥ r.y1)

/-- PyMuPDF `Rect.intersects`: both rectangles are non-empty and their
common rectangle is non-empty (a shared edge does not count). -/
def Rect.intersects (a b : Rect) : Bool :=
  !a.is_empty && !b.is_empty &&
    decide (max a.x0 b.x0 < min a.x1 b.x1 ∧ max a.y0 b.y0 < min a.y1 b.y1)

/-- PyMuPDF component-wise rectangle/tuple addition `r + (a, b, c, d)`. -/
def Rect.addTuple (r : Rect) (a b c d : ℚ) : Rect :=
  ⟨r.x0 + a, r.y0 + b, r.x1 + c, r.y1 + d⟩

/-- Containment of `inner` inside `outer` (used to state the spec invariant
that an expanded redaction bbox fully contains the originating bbox). -/
def Rect.containsRect (outer inner : Rect) : Prop :=
  outer.x0 ≤ inner.x0 ∧ outer.y0 ≤ inner.y0 ∧ inner.x1 ≤ outer.x1 ∧ inner.y1 ≤ outer.y1

instance (a b : Rect) : Decidable (Rect.containsRect a b) := by
  unfold Rect.containsRect; infer_instance

/-- PIIMatch mirrors the `PIIMatch` dataclass. -/
structure PIIMatch where
  text : String
  type : RedactionType
  page_number : ℕ
  bbox : Rect
  confidence : ℚ
  context : String
  deriving DecidableEq

/-- RedactionRectangle mirrors the `RedactionRectangle` dataclass. -/
structure RedactionRectangle where
  page_number : ℕ
  bbox : Rect
  pii_type : RedactionType
  original_text : String
  replacement_text : String
  deriving DecidableEq

/-- Span mirrors one text span dict: its text, bbox and font size. -/
structure Span where
  text : String
  bbox : Rect
  size : ℚ
  deriving DecidableEq

/-- Word characters for Python `\b` boundaries (ASCII `\w`). -/
def isWordChar (c : Char) : Bool := c.isAlphanum || c = '_'

/-- Python `\s` whitespace class. -/
def isSpaceChar (c : Char) : Bool :=
  c = ' ' || c = '\t' || c = '\n' || c = '\r' || c = '\x0b' || c = '\x0c'

/-- Embedded regular expressions: character classes, sequencing,
prioritized alternation (left first, giving greedy quantifiers),
fuel-bounded Kleene star and word boundaries. -/
inductive RE where
  | eps : RE
  | char : (Char → Bool) → RE
  | seq : RE → RE → RE
  | alt : RE → RE → RE
  | star : RE → RE
  | wb : RE

/-- One layer of the backtracking matcher, structurally recursive over the
expression; `next` is called when a star wants a further unfolding.  Each
result is the last consumed character (for later boundary checks) paired
with the remaining input, and results are listed in priority order. -/
def reMatchAux (next : RE → Option Char → List Char → List (Option Char × List Char)) :
    RE → Option Char → List Char → List (Option Char × List Char)
  | RE.eps, prev, cs => [(prev, cs)]
  | RE.char _, _, [] => []
  | RE.char p, _, c :: cs => if p c then [(some c, cs)] else []
  | RE.seq a b, prev, cs =>
      (reMatchAux next a prev cs).flatMap (fun pr => reMatchAux next b pr.1 pr.2)
  | RE.alt a b, prev, cs => reMatchAux next a prev cs ++ reMatchAux next b prev cs
  | RE.star a, prev, cs =>
      ((reMatchAux next a prev cs).flatMap (fun pr => next (RE.star a) pr.1 pr.2))
        ++ [(prev, cs)]
  | RE.wb, prev, cs =>
      let before := match prev with | none => false | some c => isWordChar c
      let after := match cs with | [] => false | c :: _ => isWordChar c
      if before ≠ after then [(prev, cs)] else []

/-- Backtracking matcher.  `reMatch fuel re prev cs` returns, in priority
order, every way `re` can match a prefix of `cs`; `prev` is the character
just before `cs` in the full string.  `fuel` bounds nested star unfoldings;
with `fuel > cs.length` and star bodies that always consume a character
(true of all patterns below) this is exactly Python semantics. -/
def reMatch : ℕ → RE → Option Char → List Char → List (Option Char × List Char)
  | 0 => reMatchAux (fun _ prev cs => [(prev, cs)])
  | fuel + 1 => reMatchAux (reMatch fuel)

/-- Scan helper for `re.finditer`: at each position try the pattern; on a
non-empty match emit its offset range and resume after it, otherwise advance
one character.  `pos` is the absolute offset of the head of the list; the
structural fuel only needs to be at least the list length plus one, since
every step consumes at least one character. -/
def findIterAux (re : RE) : ℕ → Option Char → List Char → ℕ → List (ℕ × ℕ)
  | 0, _, _, _ => []
  | _ + 1, _, [], _ => []
  | fuel + 1, prev, c :: cs, pos =>
      match reMatch (cs.length + 2) re prev (c :: cs) with
      | [] => findIterAux re fuel (some c) cs (pos + 1)
      | pr :: _ =>
          if pr.2.length < cs.length + 1 then
            (pos, pos + (cs.length + 1 - pr.2.length)) ::
              findIterAux re fuel pr.1 pr.2 (pos + (cs.length + 1 - pr.2.length))
          else
            findIterAux re fuel (some c) cs (pos + 1)

/-- Offsets of all `re.finditer` matches, as `(start, end)` pairs. -/
def findIter (re : RE) (cs : List Char) : List (ℕ × ℕ) :=
  findIterAux re (cs.length + 1) none cs 0

/-- Python `pattern.search(text)` truthiness: does any match exist. -/
def reSearch (re : RE) (cs : List Char) : Bool := !(findIter re cs).isEmpty

/-- Literal character. -/
def lit (c : Char) : RE := RE.char (fun x => x = c)

/-- Digit class `\d`. -/
def reDigit : RE := RE.char Char.isDigit

/-- Whitespace class `\s`. -/
def reSpace : RE := RE.char isSpaceChar

/-- Sequence a list of expressions. -/
def reSeqList (l : List RE) : RE := l.foldr RE.seq RE.eps

/-- Exactly `n` repetitions `{n}`. -/
def reRep (r : RE) : ℕ → RE
  | 0 => RE.eps
  | n + 1 => RE.seq r (reRep r n)

/-- Greedy `+` (one or more). -/
def rePlus (r : RE) : RE := RE.seq r (RE.star r)

/-- Greedy `{n,}` (at least `n`). -/
def reAtLeast (r : RE) (n : ℕ) : RE := RE.seq (reRep r n) (RE.star r)

/-- Greedy `?` (optional, preferring presence). -/
def reOpt (r : RE) : RE := RE.alt r RE.eps

/-- Greedy `{1,2}` (preferring two). -/
def reOneOrTwo (r : RE) : RE := RE.alt (reRep r 2) (reRep r 1)

/-- Email pattern `\b[A-Za-z0-9._%+-]+@[A-Za-z0-9.-]+\.[A-Z|a-z]{2,}\b`
(the source's character class literally includes the bar character). -/
def emailPattern : RE :=
  reSeqList [RE.wb,
    rePlus (RE.char (fun c => c.isAlphanum || c = '.' || c = '_' || c = '%' || c = '+' || c = '-')),
    lit '@',
    rePlus (RE.char (fun c => c.isAlphanum || c = '.' || c = '-')),
    lit '.',
    reAtLeast (RE.char (fun c => c.isAlpha || c = '|')) 2,
    RE.wb]

/-- SSN patterns: `\b\d{3}-\d{2}-\d{4}\b`, `\b\d{9}\b`, `\b\d{3}\s\d{2}\s\d{4}\b`. -/
def ssnPatterns : List RE :=
  [reSeqList [RE.wb, reRep reDigit 3, lit '-', reRep reDigit 2, lit '-', reRep reDigit 4, RE.wb],
   reSeqList [RE.wb, reRep reDigit 9, RE.wb],
   reSeqList [RE.wb, reRep reDigit 3, reSpace, reRep reDigit 2, reSpace, reRep reDigit 4, RE.wb]]

/-- Phone patterns: `\b\d{3}-\d{3}-\d{4}\b`, `\b\(\d{3}\)\s\d{3}-\d{4}\b`, `\b\d{10}\b`. -/
def phonePatterns : List RE :=
  [reSeqList [RE.wb, reRep reDigit 3, lit '-', reRep reDigit 3, lit '-', reRep reDigit 4, RE.wb],
   reSeqList [RE.wb, lit '(', reRep reDigit 3, lit ')', reSpace,
     reRep reDigit 3, lit '-', reRep reDigit 4, RE.wb],
   reSeqList [RE.wb, reRep reDigit 10, RE.wb]]

/-- Credit-card patterns: `\b\d{4}[\s-]?\d{4}[\s-]?\d{4}[\s-]?\d{4}\b` and
`\b\d{4}\s\d{4}\s\d{4}\s\d{4}\b`. -/
def creditCardPatterns : List RE :=
  [reSeqList [RE.wb, reRep reDigit 4, reOpt (RE.char (fun c => isSpaceChar c || c = '-')),
     reRep reDigit 4, reOpt (RE.char (fun c => isSpaceChar c || c = '-')),
     reRep reDigit 4, reOpt (RE.char (fun c => isSpaceChar c || c = '-')),
     reRep reDigit 4, RE.wb],
   reSeqList [RE.wb, reRep reDigit 4, reSpace, reRep reDigit 4, reSpace,
     reRep reDigit 4, reSpace, reRep reDigit 4, RE.wb]]

/-- False-positive structural patterns: part numbers `\b\d{3}-\d{2}-\d{3}\b`
and dates `\b\d{1,2}-\d{1,2}-\d{4}\b`. -/
def false_positive_patterns : List RE :=
  [reSeqList [RE.wb, reRep reDigit 3, lit '-', reRep reDigit 2, lit '-', reRep reDigit 3, RE.wb],
   reSeqList [RE.wb, reOneOrTwo reDigit, lit '-', reOneOrTwo reDigit, lit '-',
     reRep reDigit 4, RE.wb]]

/-- Python `str.lower` on the ASCII inputs of this program
(`String.toLower` of the library, unfolded to a list map so that concrete
instances evaluate by kernel reduction). -/
def lowerStr (s : String) : String := String.mk (s.toList.map Char.toLower)

/-- Python slice `text[s:e]` for `s ≤ e`. -/
def sliceStr (t : String) (s e : ℕ) : String := String.mk ((t.toList.drop s).take (e - s))

/-- Does `needle` occur as a contiguous substring of `hay`
(Python's `needle in hay` on strings)? -/
def containsSub (hay needle : List Char) : Bool :=
  (List.range (hay.length + 1)).any (fun k => decide (needle <+: hay.drop k))

/-- Mirrors `PDFRedactor._get_context`: a window of `context_chars`
characters each side of `[s, e)`, clipped to the text.  Natural-number
subtraction truncates at zero exactly like Python's `max(0, start - n)`. -/
def get_context (text : String) (s e context_chars : ℕ) : String :=
  let context_start := s - context_chars
  let context_end := min text.length (e + context_chars)
  sliceStr text context_start context_end

/-- Keyword blacklist of `PDFRedactor._is_false_positive`
(`false_positive_indicators` in the source). -/
def false_positive_indicators : List String :=
  ["part number", "part #", "serial number", "serial #",
   "model number", "model #", "reference number", "ref #",
   "date", "birth", "dob"]

/-- Mirrors `PDFRedactor._is_false_positive`: reject when a structural
false-positive pattern matches the text, or the lower-cased context contains
a blacklisted keyword. -/
def is_false_positive (text context : String) : Bool :=
  false_positive_patterns.any (fun p => reSearch p text.toList) ||
    false_positive_indicators.any (fun kw => containsSub (lowerStr context).toList kw.toList)

/-- Mirrors `PDFRedactor._get_match_bbox`.  The source also reads the font
size (`span.get("size", 12)`) but never uses it, and its final finiteness
check (`x0 < float('inf')` four times) can never fail over `ℚ`; both are
omitted as dead code.  Returns `none` ("mapping failure") when the offsets
fall outside the text or the computed rectangle is degenerate. -/
def get_match_bbox (spanText : String) (span_bbox : Rect) (start_char end_char : ℕ) :
    Option Rect :=
  if start_char ≥ spanText.length ∨ end_char > spanText.length then none
  else
    let span_width := span_bbox.width
    let char_width := span_width / (max spanText.length 1 : ℕ)
    let x0 := span_bbox.x0 + start_char * char_width
    let x1 := span_bbox.x0 + end_char * char_width
    let y0 := span_bbox.y0
    let y1 := span_bbox.y1
    if x0 ≥ x1 ∨ y0 ≥ y1 then none
    else some ⟨x0, y0, x1, y1⟩

/-- Mirrors `PDFRedactor._detect_pii_in_span`: emails, then SSNs, phones and
credit cards, in pattern-table order.  Only SSN candidates go through
`_is_false_positive`, and that call receives the whole span text as context;
any candidate whose bbox mapping returns `none` is dropped. -/
def detect_pii_in_span (text : String) (bbox : Rect) (page_num : ℕ) : List PIIMatch :=
  let cs := text.toList
  let emailMs := (findIter emailPattern cs).filterMap (fun se =>
    (get_match_bbox text bbox se.1 se.2).map (fun mb =>
      { text := sliceStr text se.1 se.2, type := RedactionType.email, page_number := page_num,
        bbox := mb, confidence := 1, context := get_context text se.1 se.2 20 }))
  let ssnMs := ssnPatterns.flatMap (fun pat => (findIter pat cs).filterMap (fun se =>
    if is_false_positive (sliceStr text se.1 se.2) text then none
    else (get_match_bbox text bbox se.1 se.2).map (fun mb =>
      { text := sliceStr text se.1 se.2, type := RedactionType.ssn, page_number := page_num,
        bbox := mb, confidence := 95 / 100, context := get_context text se.1 se.2 20 })))
  let phoneMs := phonePatterns.flatMap (fun pat => (findIter pat cs).filterMap (fun se =>
    (get_match_bbox text bbox se.1 se.2).map (fun mb =>
      { text := sliceStr text se.1 se.2, type := RedactionType.phone, page_number := page_num,
        bbox := mb, confidence := 9 / 10, context := get_context text se.1 se.2 20 })))
  let ccMs := creditCardPatterns.flatMap (fun pat => (findIter pat cs).filterMap (fun se =>
    (get_match_bbox text bbox se.1 se.2).map (fun mb =>
      { text := sliceStr text se.1 se.2, type := RedactionType.credit_card,
        page_number := page_num,
        bbox := mb, confidence := 85 / 100, context := get_context text se.1 se.2 20 })))
  emailMs ++ ssnMs ++ phoneMs ++ ccMs

/-- Ascending order on the sort key `(-confidence, page_number, bbox.x0)` of
`_deduplicate_matches`: confidence descending, then page ascending, then the
left edge ascending. -/
def keyLe (a b : PIIMatch) : Prop :=
  b.confidence < a.confidence ∨
    (a.confidence = b.confidence ∧
      (a.page_number < b.page_number ∨
        (a.page_number = b.page_number ∧ a.bbox.x0 ≤ b.bbox.x0)))

instance : DecidableRel keyLe := fun a b => by unfold keyLe; infer_instance

/-- Python's `matches.sort(key=lambda x: (-x.confidence, x.page_number,
x.bbox.x0))` is the stable ascending sort by `keyLe`; insertion sort placing
each earlier element before later key-equal elements realizes it. -/
def sortMatches (l : List PIIMatch) : List PIIMatch := List.insertionSort keyLe l

/-- Greedy walk of `_deduplicate_matches`: skip a candidate whose lower-cased
text was already accepted, or whose bbox intersects an accepted match's bbox
on the same page; otherwise accept it. -/
def dedupWalk : List PIIMatch → List PIIMatch → List String → List PIIMatch
  | [], unique, _ => unique
  | m :: rest, unique, seen =>
      if seen.contains (lowerStr m.text) then dedupWalk rest unique seen
      else if unique.any (fun e =>
          decide (m.page_number = e.page_number) && m.bbox.intersects e.bbox) then
        dedupWalk rest unique seen
      else dedupWalk rest (unique ++ [m]) (seen ++ [lowerStr m.text])

/-- Mirrors `PDFRedactor._deduplicate_matches`. -/
def deduplicate_matches (ms : List PIIMatch) : List PIIMatch :=
  match ms with
  | [] => []
  | _ => dedupWalk (sortMatches ms) [] []

/-- Python `d[k] = d.get(k, 0) + 1` on an insertion-ordered dict. -/
def dictIncr {α : Type} [DecidableEq α] : List (α × ℕ) → α → List (α × ℕ)
  | [], k => [(k, 1)]
  | (k', v) :: rest, k =>
      if k' = k then (k', v + 1) :: rest else (k', v) :: dictIncr rest k

/-- Mirrors `PDFRedactor._count_matches_by_type`. -/
def count_matches_by_type (ms : List PIIMatch) : List (RedactionType × ℕ) :=
  ms.foldl (fun counts m => dictIncr counts m.type) []

/-- Detection metadata dict of `detect_pii_with_coordinates`. -/
structure DetectionMetadata where
  total_pages : ℕ
  total_matches : ℕ
  matches_by_type : List (RedactionType × ℕ)
  deriving DecidableEq

/-- A document as the engine sees it: the encryption flag and, per page, the
text spans in block/line order as delivered by `page.get_text("dict")`. -/
structure PdfDocument where
  needs_pass : Bool
  pages : List (List Span)

/-- Mirrors `PDFRedactor.detect_pii_with_coordinates`: reject encrypted
documents, scan every span of every page in order, deduplicate, and report
metadata computed from the deduplicated list. -/
def detect_pii_with_coordinates (doc : PdfDocument) :
    Except String (List PIIMatch × DetectionMetadata) :=
  if doc.needs_pass then Except.error "PDF is encrypted and cannot be processed"
  else
    let raw := doc.pages.enum.flatMap (fun pg =>
      pg.2.flatMap (fun sp => detect_pii_in_span sp.text sp.bbox pg.1))
    let deduped := deduplicate_matches raw
    Except.ok (deduped,
      { total_pages := doc.pages.length,
        total_matches := deduped.length,
        matches_by_type := count_matches_by_type deduped })

/-- Mirrors `PDFRedactor._get_replacement_text`.  The source's trailing
`else` arm returning `"[REDACTED]"` is unreachable: the enum has exactly the
four members below. -/
def get_replacement_text (pii_type : RedactionType) (_original_text : String) : String :=
  match pii_type with
  | RedactionType.email => "[EMAIL REDACTED]"
  | RedactionType.ssn => "[SSN REDACTED]"
  | RedactionType.phone => "[PHONE REDACTED]"
  | RedactionType.credit_card => "[CREDIT CARD REDACTED]"

/-- Mirrors `PDFRedactor.create_redaction_plan`.  Note the source computes
`match.bbox + (2, 2, 2, 2)`, which in PyMuPDF adds component-wise. -/
def create_redaction_plan (pii_matches : List PIIMatch) : List RedactionRectangle :=
  pii_matches.map (fun m =>
    { page_number := m.page_number,
      bbox := m.bbox.addTuple 2 2 2 2,
      pii_type := m.type,
      original_text := m.text,
      replacement_text := get_replacement_text m.type m.text })

/-- Confidence histogram of the redaction summary. -/
structure ConfidenceStats where
  high : ℕ
  medium : ℕ
  low : ℕ
  deriving DecidableEq

/-- Summary dict of `PDFRedactor.get_redaction_summary`. -/
structure RedactionSummary where
  total_redactions : ℕ
  redactions_by_type : List (String × ℕ)
  redactions_by_page : List (ℕ × ℕ)
  confidence_stats : ConfidenceStats
  deriving DecidableEq

/-- One iteration of the loop in `get_redaction_summary`. -/
def summaryStep (s : RedactionSummary) (m : PIIMatch) : RedactionSummary :=
  let s := { s with redactions_by_type := dictIncr s.redactions_by_type m.type.value }
  let s := { s with redactions_by_page := dictIncr s.redactions_by_page m.page_number }
  if 9 / 10 < m.confidence then
    { s with confidence_stats :=
        { s.confidence_stats with high := s.confidence_stats.high + 1 } }
  else if 7 / 10 < m.confidence then
    { s with confidence_stats :=
        { s.confidence_stats with medium := s.confidence_stats.medium + 1 } }
  else
    { s with confidence_stats :=
        { s.confidence_stats with low := s.confidence_stats.low + 1 } }

/-- Mirrors `PDFRedactor.get_redaction_summary`. -/
def get_redaction_summary (pii_matches : List PIIMatch) : RedactionSummary :=
  pii_matches.foldl summaryStep
    { total_redactions := pii_matches.length,
      redactions_by_type := [],
      redactions_by_page := [],
      confidence_stats := { high := 0, medium := 0, low := 0 } }

/-! Theorems about the embedded engine, one per specification claim. -/

/-- Claim C1 (code bug): the redaction planner is supposed to expand each
match's bbox by a 2-point margin on all sides, so that the rectangle contains
the match's bbox.  The source computes `match.bbox + (2, 2, 2, 2)`, which in
PyMuPDF adds component-wise and therefore translates the rectangle by
`(2, 2)` instead of expanding it: for the match bbox `(0, 0, 10, 10)` the
planned rectangle is `(2, 2, 12, 12)`, which does not contain it. -/
theorem C1_bbox_shifted_not_expanded :
    (create_redaction_plan
        [{ text := "123-45-6789", type := RedactionType.ssn, page_number := 0,
           bbox := ⟨0, 0, 10, 10⟩, confidence := 95 / 100, context := "" }]).map
        (fun r => r.bbox) = [⟨2, 2, 12, 12⟩] ∧
    ¬ Rect.containsRect ⟨2, 2, 12, 12⟩ ⟨0, 0, 10, 10⟩ := by
  decide

/-- Claim C2 (counterexample): the claim says a match whose coordinate
mapping fails is still counted in `total_matches` and `matches_by_type`.
On a one-page document with the single zero-width span `"123-45-6789"`,
the SSN pattern produces a raw match at offsets `(0, 11)` that passes the
false-positive filter, its bbox mapping fails (degenerate rectangle), and
the detection metadata reports `total_matches = 0` with an empty
`matches_by_type` — the match is dropped from the metadata as well. -/
theorem C2_counterexample :
    findIter (ssnPatterns.getD 0 RE.eps) "123-45-6789".toList = [(0, 11)] ∧
    is_false_positive "123-45-6789" "123-45-6789" = false ∧
    get_match_bbox "123-45-6789" ⟨0, 0, 0, 10⟩ 0 11 = none ∧
    detect_pii_with_coordinates
        { needs_pass := false, pages := [[⟨"123-45-6789", ⟨0, 0, 0, 10⟩, 12⟩]] }
      = Except.ok ([],
          { total_pages := 1, total_matches := 0, matches_by_type := [] }) := by
  refine ⟨by decide, by decide, by decide, ?_⟩
  decide

/-- Span-scanner inversion: every match the scanner emits has a
successfully mapped bbox for some offset range (whose text and 20-character
window it carries), and every emitted SSN match passed the false-positive
filter called with the whole span text as context. -/
theorem detect_pii_in_span_mem (text : String) (bbox : Rect) (page : ℕ) (m : PIIMatch)
    (hm : m ∈ detect_pii_in_span text bbox page) :
    (∃ s e, get_match_bbox text bbox s e = some m.bbox ∧ m.text = sliceStr text s e ∧
      m.context = get_context text s e 20) ∧
    (m.type = RedactionType.ssn → is_false_positive m.text text = false) := by
  simp only [detect_pii_in_span, List.mem_append] at hm
  rcases hm with ((he | hs) | hp) | hc
  · rw [List.mem_filterMap] at he
    obtain ⟨se, _, hf⟩ := he
    rw [Option.map_eq_some'] at hf
    obtain ⟨mb, hmb, hg⟩ := hf
    subst hg
    exact ⟨⟨se.1, se.2, hmb, rfl, rfl⟩, fun hty => RedactionType.noConfusion hty⟩
  · rw [List.mem_flatMap] at hs
    obtain ⟨pat, _, hmem⟩ := hs
    rw [List.mem_filterMap] at hmem
    obtain ⟨se, _, hf⟩ := hmem
    by_cases hfp : is_false_positive (sliceStr text se.1 se.2) text = true
    · rw [if_pos hfp] at hf
      exact absurd hf (by simp)
    · rw [if_neg hfp] at hf
      rw [Option.map_eq_some'] at hf
      obtain ⟨mb, hmb, hg⟩ := hf
      subst hg
      refine ⟨⟨se.1, se.2, hmb, rfl, rfl⟩, fun _ => ?_⟩
      simpa using hfp
  · rw [List.mem_flatMap] at hp
    obtain ⟨pat, _, hmem⟩ := hp
    rw [List.mem_filterMap] at hmem
    obtain ⟨se, _, hf⟩ := hmem
    rw [Option.map_eq_some'] at hf
    obtain ⟨mb, hmb, hg⟩ := hf
    subst hg
    exact ⟨⟨se.1, se.2, hmb, rfl, rfl⟩, fun hty => RedactionType.noConfusion hty⟩
  · rw [List.mem_flatMap] at hc
    obtain ⟨pat, _, hmem⟩ := hc
    rw [List.mem_filterMap] at hmem
    obtain ⟨se, _, hf⟩ := hmem
    rw [Option.map_eq_some'] at hf
    obtain ⟨mb, hmb, hg⟩ := hf
    subst hg
    exact ⟨⟨se.1, se.2, hmb, rfl, rfl⟩, fun hty => RedactionType.noConfusion hty⟩

/-- Claim C2 (amended): a raw match whose coordinate mapping fails is
excluded from the whole pipeline — from the redaction path and also from the
detection metadata — and only that match is affected.  Every emitted match
has a successfully mapped bbox; and on a document pairing a zero-width span
holding an SSN (mapping fails) with a normal span holding an email, the
email is still detected and the metadata counts exactly it. -/
theorem C2_mapping_failure_scope (text : String) (bbox : Rect) (page : ℕ) (m : PIIMatch)
    (hm : m ∈ detect_pii_in_span text bbox page) :
    (∃ s e, get_match_bbox text bbox s e = some m.bbox) ∧
    detect_pii_with_coordinates
        { needs_pass := false,
          pages := [[⟨"123-45-6789", ⟨0, 0, 0, 10⟩, 12⟩, ⟨"a@b.co", ⟨0, 20, 60, 30⟩, 12⟩]] }
      = Except.ok ([
          { text := "a@b.co", type := RedactionType.email, page_number := 0,
            bbox := ⟨0, 20, 60, 30⟩, confidence := 1, context := "a@b.co" }],
          { total_pages := 1, total_matches := 1,
            matches_by_type := [(RedactionType.email, 1)] }) := by
  refine ⟨?_, by decide⟩
  obtain ⟨⟨s, e, hbb, _, _⟩, _⟩ := detect_pii_in_span_mem text bbox page m hm
  exact ⟨s, e, hbb⟩

/-- Witness for C2 (amended): the email match emitted from the span
`"a@b.co"` has a successfully mapped bbox. -/
theorem C2_mapping_failure_scope_witness :
    ∃ s e, get_match_bbox "a@b.co" ⟨0, 20, 60, 30⟩ s e
      = some (⟨0, 20, 60, 30⟩ : Rect) :=
  (C2_mapping_failure_scope "a@b.co" ⟨0, 20, 60, 30⟩ 0
    { text := "a@b.co", type := RedactionType.email, page_number := 0,
      bbox := ⟨0, 20, 60, 30⟩, confidence := 1, context := "a@b.co" }
    (by decide)).1

/-- Claim C4 (counterexample): the claim says the false-positive filter is
applied to every raw match of every PII type, with the 20-character context
window as context.  On the span `"part number a@b.co"` the detector emits
the EMAIL match `"a@b.co"` (stored context: the whole text, which is its
20-character window) even though the filter, applied to that text and
context, returns `true` — emails are never filtered in the source. -/
theorem C4_counterexample :
    (detect_pii_in_span "part number a@b.co" ⟨0, 0, 100, 10⟩ 0).map
        (fun m => (m.text, m.type.value, m.context))
      = [("a@b.co", "email", "part number a@b.co")] ∧
    is_false_positive "a@b.co" "part number a@b.co" = true := by
  decide

/-- Claim C4 (amended): the false-positive filter is applied only to SSN
raw matches, and its context argument is the entire span text rather than
the 20-character window; every emitted SSN match passes that check, while
matches of the other types are emitted unfiltered (see the C4
counterexample for an email emitted despite a blacklisted context). -/
theorem C4_filter_only_ssn_full_context (text : String) (bbox : Rect) (page : ℕ)
    (m : PIIMatch) (hm : m ∈ detect_pii_in_span text bbox page)
    (hty : m.type = RedactionType.ssn) :
    is_false_positive m.text text = false :=
  (detect_pii_in_span_mem text bbox page m hm).2 hty

/-- Witness for C4 (amended): the SSN match emitted from the span
`"ssn 123-45-6789"` passed the filter against the whole span text. -/
theorem C4_filter_only_ssn_full_context_witness :
    is_false_positive "123-45-6789" "ssn 123-45-6789" = false :=
  C4_filter_only_ssn_full_context "ssn 123-45-6789" ⟨0, 0, 100, 10⟩ 0
    { text := "123-45-6789", type := RedactionType.ssn, page_number := 0,
      bbox := ⟨80 / 3, 0, 100, 10⟩, confidence := 95 / 100,
      context := "ssn 123-45-6789" }
    (by decide) rfl

/-- Claim C5 (counterexample): the claim lists `phone`, `tel` and `fax`
among the blacklisted context keywords.  The source's
`false_positive_indicators` list does not contain them: for the SSN-shaped
text `"123-45-6789"` with context `"phone"` (which contains the claimed
keyword `"phone"`), the filter accepts the match. -/
theorem C5_counterexample :
    containsSub (lowerStr "phone").toList "phone".toList = true ∧
    is_false_positive "123-45-6789" "phone" = false := by
  decide

/-- Claim C5 (amended): for every match whose lower-cased context contains
one of the eleven keywords actually blacklisted by the source — `part
number`, `part #`, `serial number`, `serial #`, `model number`, `model #`,
`reference number`, `ref #`, `date`, `birth`, `dob` (without `phone`, `tel`,
`fax`) — the false-positive filter rejects the match. -/
theorem C5_keyword_rejects (text context kw : String)
    (hkw : kw ∈ false_positive_indicators)
    (hsub : containsSub (lowerStr context).toList kw.toList = true) :
    is_false_positive text context = true := by
  unfold is_false_positive
  rw [Bool.or_eq_true]
  right
  rw [List.any_eq_true]
  exact ⟨kw, hkw, hsub⟩

/-- Witness for C5: the keyword `"date"` in the context `"Date of Birth"`
makes the filter reject the text `"x"`. -/
theorem C5_keyword_rejects_witness : is_false_positive "x" "Date of Birth" = true :=
  C5_keyword_rejects "x" "Date of Birth" "date" (by decide) (by decide)

/-- Totality of the deduplication sort key order. -/
instance : IsTotal PIIMatch keyLe := by
  constructor
  intro a b
  unfold keyLe
  rcases lt_trichotomy a.confidence b.confidence with h | h | h
  · right; left; exact h
  · rcases Nat.lt_trichotomy a.page_number b.page_number with hp | hp | hp
    · left; right; exact ⟨h, Or.inl hp⟩
    · rcases le_total a.bbox.x0 b.bbox.x0 with hx | hx
      · left; right; exact ⟨h, Or.inr ⟨hp, hx⟩⟩
      · right; right; exact ⟨h.symm, Or.inr ⟨hp.symm, hx⟩⟩
    · right; right; exact ⟨h.symm, Or.inl hp⟩
  · left; left; exact h

/-- Transitivity of the deduplication sort key order. -/
instance : IsTrans PIIMatch keyLe := by
  constructor
  intro a b c hab hbc
  unfold keyLe at hab hbc ⊢
  rcases hab with h1 | ⟨e1, h1⟩
  · rcases hbc with h2 | ⟨e2, h2⟩
    · left; exact lt_trans h2 h1
    · left; exact lt_of_eq_of_lt e2.symm h1
  · rcases hbc with h2 | ⟨e2, h2⟩
    · left; exact lt_of_lt_of_eq h2 e1.symm
    · right
      refine ⟨e1.trans e2, ?_⟩
      rcases h1 with hp1 | ⟨ep1, hx1⟩
      · rcases h2 with hp2 | ⟨ep2, hx2⟩
        · left; omega
        · left; omega
      · rcases h2 with hp2 | ⟨ep2, hx2⟩
        · left; omega
        · right; exact ⟨by omega, le_trans hx1 hx2⟩

/-- Rectangle intersection is symmetric. -/
theorem Rect.intersects_symm {a b : Rect} (h : a.intersects b = true) :
    b.intersects a = true := by
  unfold Rect.intersects at h ⊢
  simp only [Bool.and_eq_true, decide_eq_true_eq] at h ⊢
  obtain ⟨⟨ha, hb⟩, hx, hy⟩ := h
  refine ⟨⟨hb, ha⟩, ?_, ?_⟩
  · rw [max_comm b.x0 a.x0, min_comm b.x1 a.x1]; exact hx
  · rw [max_comm b.y0 a.y0, min_comm b.y1 a.y1]; exact hy

/-- Deduplication walk on a sorted pair whose bboxes intersect on the same
page keeps exactly the first element: the second is skipped either as an
exact lower-cased text duplicate or as a spatial overlap. -/
theorem dedupWalk_pair (a b : PIIMatch) (hpage : b.page_number = a.page_number)
    (hint : b.bbox.intersects a.bbox = true) :
    dedupWalk [a, b] [] [] = [a] := by
  simp [dedupWalk]
  exact fun _ => ⟨hpage, hint⟩

/-- Claim C6 (confirmed): deduplication first stable-sorts by
(confidence descending, page ascending, x0 ascending) — the sort output is a
permutation of the input, pairwise ordered by that key — and when the input
is exactly two matches of one page with intersecting bboxes, exactly one is
retained: the higher-confidence one, or on a confidence tie the one with
the smaller (or equal, by stability) x0. -/
theorem C6_dedup_pair_overlap (m1 m2 : PIIMatch)
    (hpage : m1.page_number = m2.page_number)
    (hint : m1.bbox.intersects m2.bbox = true) :
    (∀ l : List PIIMatch,
      List.Perm (sortMatches l) l ∧ List.Pairwise keyLe (sortMatches l)) ∧
    (deduplicate_matches [m1, m2]).length = 1 ∧
    (m2.confidence < m1.confidence → deduplicate_matches [m1, m2] = [m1]) ∧
    (m1.confidence < m2.confidence → deduplicate_matches [m1, m2] = [m2]) ∧
    (m1.confidence = m2.confidence → m1.bbox.x0 ≤ m2.bbox.x0 →
      deduplicate_matches [m1, m2] = [m1]) ∧
    (m1.confidence = m2.confidence → m2.bbox.x0 < m1.bbox.x0 →
      deduplicate_matches [m1, m2] = [m2]) := by
  have hsortfacts : ∀ l : List PIIMatch,
      List.Perm (sortMatches l) l ∧ List.Pairwise keyLe (sortMatches l) :=
    fun l => ⟨List.perm_insertionSort keyLe l, List.sorted_insertionSort keyLe l⟩
  by_cases hk : keyLe m1 m2
  · have hsorted : sortMatches [m1, m2] = [m1, m2] := by
      simp [sortMatches, List.insertionSort, List.orderedInsert, hk]
    have hres : deduplicate_matches [m1, m2] = [m1] := by
      show dedupWalk (sortMatches [m1, m2]) [] [] = [m1]
      rw [hsorted]
      exact dedupWalk_pair m1 m2 hpage.symm (Rect.intersects_symm hint)
    refine ⟨hsortfacts, by rw [hres]; rfl, fun _ => hres, ?_, fun _ _ => hres, ?_⟩
    · intro hlt
      rcases hk with h' | ⟨e, _⟩
      · exact absurd h' (lt_asymm hlt)
      · exact absurd e (ne_of_lt hlt)
    · intro heq hx
      rcases hk with h' | ⟨_, inner⟩
      · exact absurd heq (ne_of_gt h')
      · rcases inner with hp | ⟨_, hx1⟩
        · omega
        · exact absurd hx1 (not_le_of_lt hx)
  · have hsorted : sortMatches [m1, m2] = [m2, m1] := by
      simp [sortMatches, List.insertionSort, List.orderedInsert, hk]
    have hres : deduplicate_matches [m1, m2] = [m2] := by
      show dedupWalk (sortMatches [m1, m2]) [] [] = [m2]
      rw [hsorted]
      exact dedupWalk_pair m2 m1 hpage hint
    refine ⟨hsortfacts, by rw [hres]; rfl, ?_, fun _ => hres, ?_, fun _ _ => hres⟩
    · intro hlt
      exact absurd (Or.inl hlt) hk
    · intro heq hx
      exact absurd (Or.inr ⟨heq, Or.inr ⟨hpage, hx⟩⟩) hk

/-- Witness for C6: an email match (confidence 1) and an overlapping phone
match (confidence 0.9) on the same page collapse to the email match. -/
theorem C6_dedup_pair_overlap_witness :
    deduplicate_matches
      [{ text := "a@b.co", type := RedactionType.email, page_number := 0,
         bbox := ⟨0, 0, 10, 10⟩, confidence := 1, context := "" },
       { text := "555-123-4567", type := RedactionType.phone, page_number := 0,
         bbox := ⟨5, 0, 15, 10⟩, confidence := 9 / 10, context := "" }]
      = [{ text := "a@b.co", type := RedactionType.email, page_number := 0,
           bbox := ⟨0, 0, 10, 10⟩, confidence := 1, context := "" }] :=
  (C6_dedup_pair_overlap
    { text := "a@b.co", type := RedactionType.email, page_number := 0,
      bbox := ⟨0, 0, 10, 10⟩, confidence := 1, context := "" }
    { text := "555-123-4567", type := RedactionType.phone, page_number := 0,
      bbox := ⟨5, 0, 15, 10⟩, confidence := 9 / 10, context := "" }
    rfl (by decide)).2.2.1 (by decide)

/-- Rectangle described by the specification's coordinate-mapping formula
(char_width = span.width / max(L,1); x0 = span.x0 + start·char_width;
x1 = span.x0 + end·char_width; y0 = span.y0; y1 = span.y1). -/
def spec_match_rect (spanText : String) (span_bbox : Rect) (s e : ℕ) : Rect :=
  let char_width := span_bbox.width / (max spanText.length 1 : ℕ)
  ⟨span_bbox.x0 + s * char_width, span_bbox.y0, span_bbox.x0 + e * char_width, span_bbox.y1⟩

/-- Claim C7 (confirmed): for offsets `0 ≤ start < end ≤ L` inside a span,
the coordinate mapper returns exactly the rectangle of the specification
formula, unless that rectangle is degenerate (`x0 ≥ x1` or `y0 ≥ y1`), in
which case mapping fails for that match.  Non-finite values cannot arise in
the rational model. -/
theorem C7_match_bbox_formula (spanText : String) (span_bbox : Rect) (s e : ℕ)
    (hse : s < e) (he : e ≤ spanText.length) :
    get_match_bbox spanText span_bbox s e =
      if (spec_match_rect spanText span_bbox s e).x0 ≥ (spec_match_rect spanText span_bbox s e).x1
          ∨ (spec_match_rect spanText span_bbox s e).y0 ≥ (spec_match_rect spanText span_bbox s e).y1
      then none
      else some (spec_match_rect spanText span_bbox s e) := by
  unfold get_match_bbox spec_match_rect
  rw [if_neg (by omega : ¬ (s ≥ spanText.length ∨ e > spanText.length))]

/-- Witness for C7: the match `[1, 3)` in the 5-character span `"hello"`
with bbox `(0, 0, 10, 10)` maps to the rectangle `(2, 0, 6, 10)`. -/
theorem C7_match_bbox_formula_witness :
    get_match_bbox "hello" ⟨0, 0, 10, 10⟩ 1 3 = some ⟨2, 0, 6, 10⟩ := by
  rw [C7_match_bbox_formula "hello" ⟨0, 0, 10, 10⟩ 1 3 (by decide) (by decide)]
  decide

/-- Claim C8 (counterexample): the claim says the planner's output is
ordered by page number first.  The planner preserves the input order
unchanged: for an input whose matches sit on pages `1` and `0` in that
order, the output page numbers are `[1, 0]`, not ascending. -/
theorem C8_counterexample :
    ((create_redaction_plan
        [{ text := "a@b.co", type := RedactionType.email, page_number := 1,
           bbox := ⟨0, 0, 10, 10⟩, confidence := 1, context := "" },
         { text := "c@d.co", type := RedactionType.email, page_number := 0,
           bbox := ⟨0, 0, 10, 10⟩, confidence := 1, context := "" }]).map
        (fun r => r.page_number)) = [1, 0] ∧
    ¬ List.Pairwise (fun a b => a ≤ b)
        ((create_redaction_plan
        [{ text := "a@b.co", type := RedactionType.email, page_number := 1,
           bbox := ⟨0, 0, 10, 10⟩, confidence := 1, context := "" },
         { text := "c@d.co", type := RedactionType.email, page_number := 0,
           bbox := ⟨0, 0, 10, 10⟩, confidence := 1, context := "" }]).map
        (fun r => r.page_number)) := by
  decide

/-- Claim C8 (amended): the planner emits exactly one rectangle per retained
match, in the original match order (so the output is page-ordered only when
its input is), and each rectangle carries the match's page, its text, and
the type-specific replacement label EMAIL→"[EMAIL REDACTED]",
SSN→"[SSN REDACTED]", PHONE→"[PHONE REDACTED]",
CREDIT_CARD→"[CREDIT CARD REDACTED]" (the source's fallback "[REDACTED]"
arm is unreachable: the enum has exactly these four members). -/
theorem C8_plan_order_and_labels (ms : List PIIMatch) (i : ℕ) (h : i < ms.length) :
    (create_redaction_plan ms).length = ms.length ∧
    ((create_redaction_plan ms)[i]?.map (fun r => r.page_number)) = some ms[i].page_number ∧
    ((create_redaction_plan ms)[i]?.map (fun r => r.original_text)) = some ms[i].text ∧
    ((create_redaction_plan ms)[i]?.map (fun r => r.replacement_text))
      = some (get_replacement_text ms[i].type ms[i].text) ∧
    (∀ t : String, get_replacement_text RedactionType.email t = "[EMAIL REDACTED]") ∧
    (∀ t : String, get_replacement_text RedactionType.ssn t = "[SSN REDACTED]") ∧
    (∀ t : String, get_replacement_text RedactionType.phone t = "[PHONE REDACTED]") ∧
    (∀ t : String, get_replacement_text RedactionType.credit_card t = "[CREDIT CARD REDACTED]") := by
  refine ⟨?_, ?_, ?_, ?_, fun t => rfl, fun t => rfl, fun t => rfl, fun t => rfl⟩
  · simp [create_redaction_plan]
  · simp [create_redaction_plan, List.getElem?_map, List.getElem?_eq_getElem h]
  · simp [create_redaction_plan, List.getElem?_map, List.getElem?_eq_getElem h]
  · simp [create_redaction_plan, List.getElem?_map, List.getElem?_eq_getElem h]

/-- Witness for C8 (amended): a one-element plan for an email match. -/
theorem C8_plan_order_and_labels_witness :
    (create_redaction_plan
        [{ text := "a@b.co", type := RedactionType.email, page_number := 3,
           bbox := ⟨0, 0, 10, 10⟩, confidence := 1, context := "" }]).length = 1 ∧
    ((create_redaction_plan
        [{ text := "a@b.co", type := RedactionType.email, page_number := 3,
           bbox := ⟨0, 0, 10, 10⟩, confidence := 1, context := "" }])[0]?.map
        (fun r => r.replacement_text)) = some "[EMAIL REDACTED]" := by
  have h := C8_plan_order_and_labels
    [{ text := "a@b.co", type := RedactionType.email, page_number := 3,
       bbox := ⟨0, 0, 10, 10⟩, confidence := 1, context := "" }] 0 (by decide)
  exact ⟨h.1, h.2.2.2.1⟩

/-- Sum of the counter values of a Python-style counting dict. -/
def sumVals {α : Type} (d : List (α × ℕ)) : ℕ := (d.map Prod.snd).sum

/-- Incrementing a counting dict raises the total count by one. -/
theorem sumVals_dictIncr {α : Type} [DecidableEq α] (d : List (α × ℕ)) (k : α) :
    sumVals (dictIncr d k) = sumVals d + 1 := by
  induction d with
  | nil => rfl
  | cons p rest ih =>
    obtain ⟨k', v⟩ := p
    by_cases h : k' = k
    · simp [dictIncr, h, sumVals]
      omega
    · simp only [dictIncr, if_neg h, sumVals, List.map_cons, List.sum_cons] at ih ⊢
      omega

/-- Field-level description of one summary-loop iteration: the total is
untouched, the per-type and per-page dicts are incremented at the match's
key, and exactly the bucket selected by the source's if/elif/else gains 1. -/
theorem summaryStep_fields (s : RedactionSummary) (m : PIIMatch) :
    (summaryStep s m).total_redactions = s.total_redactions ∧
    (summaryStep s m).redactions_by_type = dictIncr s.redactions_by_type m.type.value ∧
    (summaryStep s m).redactions_by_page = dictIncr s.redactions_by_page m.page_number ∧
    (summaryStep s m).confidence_stats.high
      = s.confidence_stats.high + (if (9 : ℚ) / 10 < m.confidence then 1 else 0) ∧
    (summaryStep s m).confidence_stats.medium
      = s.confidence_stats.medium
        + (if (7 : ℚ) / 10 < m.confidence ∧ m.confidence ≤ 9 / 10 then 1 else 0) ∧
    (summaryStep s m).confidence_stats.low
      = s.confidence_stats.low + (if m.confidence ≤ (7 : ℚ) / 10 then 1 else 0) := by
  by_cases h1 : (9 : ℚ) / 10 < m.confidence
  · have h2 : ¬ m.confidence ≤ (9 : ℚ) / 10 := not_le_of_lt h1
    have h3 : ¬ m.confidence ≤ (7 : ℚ) / 10 := by
      intro hc
      exact h2 (le_trans hc (by norm_num))
    simp [summaryStep, h1, h2, h3]
  · by_cases h2 : (7 : ℚ) / 10 < m.confidence
    · have hle : m.confidence ≤ (9 : ℚ) / 10 := le_of_not_lt h1
      have h3 : ¬ m.confidence ≤ (7 : ℚ) / 10 := not_le_of_lt h2
      simp [summaryStep, h1, h2, hle, h3]
    · have hle7 : m.confidence ≤ (7 : ℚ) / 10 := le_of_not_lt h2
      simp [summaryStep, h1, h2, hle7]

/-- Folding the summary loop never changes the precomputed total. -/
theorem foldl_summaryStep_total (ms : List PIIMatch) (s : RedactionSummary) :
    (ms.foldl summaryStep s).total_redactions = s.total_redactions := by
  induction ms generalizing s with
  | nil => rfl
  | cons m rest ih =>
    rw [List.foldl_cons, ih, (summaryStep_fields s m).1]

/-- Folding the summary loop adds one per match to the per-type totals. -/
theorem foldl_summaryStep_type (ms : List PIIMatch) (s : RedactionSummary) :
    sumVals (ms.foldl summaryStep s).redactions_by_type
      = sumVals s.redactions_by_type + ms.length := by
  induction ms generalizing s with
  | nil => rfl
  | cons m rest ih =>
    rw [List.foldl_cons, ih, (summaryStep_fields s m).2.1, sumVals_dictIncr]
    simp
    omega

/-- Folding the summary loop adds one per match to the per-page totals. -/
theorem foldl_summaryStep_page (ms : List PIIMatch) (s : RedactionSummary) :
    sumVals (ms.foldl summaryStep s).redactions_by_page
      = sumVals s.redactions_by_page + ms.length := by
  induction ms generalizing s with
  | nil => rfl
  | cons m rest ih =>
    rw [List.foldl_cons, ih, (summaryStep_fields s m).2.2.1, sumVals_dictIncr]
    simp
    omega

/-- Folding the summary loop counts the matches with confidence above 0.9
into the high bucket. -/
theorem foldl_summaryStep_high (ms : List PIIMatch) (s : RedactionSummary) :
    (ms.foldl summaryStep s).confidence_stats.high
      = s.confidence_stats.high
        + ms.countP (fun m => decide ((9 : ℚ) / 10 < m.confidence)) := by
  induction ms generalizing s with
  | nil => rfl
  | cons m rest ih =>
    rw [List.foldl_cons, ih, (summaryStep_fields s m).2.2.2.1, List.countP_cons]
    by_cases h : (9 : ℚ) / 10 < m.confidence <;> simp [h] <;> omega

/-- Folding the summary loop counts the matches with confidence in
(0.7, 0.9] into the medium bucket. -/
theorem foldl_summaryStep_medium (ms : List PIIMatch) (s : RedactionSummary) :
    (ms.foldl summaryStep s).confidence_stats.medium
      = s.confidence_stats.medium
        + ms.countP (fun m =>
            decide ((7 : ℚ) / 10 < m.confidence ∧ m.confidence ≤ 9 / 10)) := by
  induction ms generalizing s with
  | nil => rfl
  | cons m rest ih =>
    rw [List.foldl_cons, ih, (summaryStep_fields s m).2.2.2.2.1, List.countP_cons]
    by_cases h : (7 : ℚ) / 10 < m.confidence ∧ m.confidence ≤ 9 / 10 <;>
      simp [h] <;> omega

/-- Folding the summary loop counts the matches with confidence at most 0.7
into the low bucket. -/
theorem foldl_summaryStep_low (ms : List PIIMatch) (s : RedactionSummary) :
    (ms.foldl summaryStep s).confidence_stats.low
      = s.confidence_stats.low
        + ms.countP (fun m => decide (m.confidence ≤ (7 : ℚ) / 10)) := by
  induction ms generalizing s with
  | nil => rfl
  | cons m rest ih =>
    rw [List.foldl_cons, ih, (summaryStep_fields s m).2.2.2.2.2, List.countP_cons]
    by_cases h : m.confidence ≤ (7 : ℚ) / 10 <;> simp [h] <;> omega

/-- Folding the summary loop adds exactly one per match across the three
confidence buckets together. -/
theorem foldl_summaryStep_buckets (ms : List PIIMatch) (s : RedactionSummary) :
    (ms.foldl summaryStep s).confidence_stats.high
      + (ms.foldl summaryStep s).confidence_stats.medium
      + (ms.foldl summaryStep s).confidence_stats.low
      = s.confidence_stats.high + s.confidence_stats.medium
        + s.confidence_stats.low + ms.length := by
  induction ms generalizing s with
  | nil => rfl
  | cons m rest ih =>
    obtain ⟨-, -, -, hh, hm, hl⟩ := summaryStep_fields s m
    rw [List.foldl_cons, ih, hh, hm, hl]
    by_cases h1 : (9 : ℚ) / 10 < m.confidence
    · have h2 : ¬ m.confidence ≤ (9 : ℚ) / 10 := not_le_of_lt h1
      have h3 : ¬ m.confidence ≤ (7 : ℚ) / 10 := fun hc =>
        h2 (le_trans hc (by norm_num))
      simp only [if_pos h1, if_neg h3]
      rw [if_neg (fun hc => h2 hc.2)]
      simp
      omega
    · by_cases h2 : (7 : ℚ) / 10 < m.confidence
      · have hle : m.confidence ≤ (9 : ℚ) / 10 := le_of_not_lt h1
        have h3 : ¬ m.confidence ≤ (7 : ℚ) / 10 := not_le_of_lt h2
        rw [if_neg h1, if_pos ⟨h2, hle⟩, if_neg h3]
        simp
        omega
      · have hle7 : m.confidence ≤ (7 : ℚ) / 10 := le_of_not_lt h2
        rw [if_neg h1, if_neg (fun hc => h2 hc.1), if_pos hle7]
        simp
        omega

/-- Claim C9 (confirmed): the summary buckets every match by confidence
`c` into exactly one tier — high iff `c > 0.9`, medium iff `0.7 < c ≤ 0.9`,
low iff `c ≤ 0.7` — so the standard confidences place EMAIL (1.0) and SSN
(0.95) in high and PHONE (0.9) and CREDIT_CARD (0.85) in medium. -/
theorem C9_confidence_tiers (ms : List PIIMatch) :
    (get_redaction_summary ms).confidence_stats.high
      = ms.countP (fun m => decide ((9 : ℚ) / 10 < m.confidence)) ∧
    (get_redaction_summary ms).confidence_stats.medium
      = ms.countP (fun m =>
          decide ((7 : ℚ) / 10 < m.confidence ∧ m.confidence ≤ 9 / 10)) ∧
    (get_redaction_summary ms).confidence_stats.low
      = ms.countP (fun m => decide (m.confidence ≤ (7 : ℚ) / 10)) ∧
    (get_redaction_summary
        [{ text := "a@b.co", type := RedactionType.email, page_number := 0,
           bbox := ⟨0, 0, 10, 10⟩, confidence := 1, context := "" },
         { text := "123-45-6789", type := RedactionType.ssn, page_number := 0,
           bbox := ⟨20, 0, 30, 10⟩, confidence := 95 / 100, context := "" },
         { text := "555-123-4567", type := RedactionType.phone, page_number := 1,
           bbox := ⟨0, 0, 10, 10⟩, confidence := 9 / 10, context := "" },
         { text := "4111 1111 1111 1111", type := RedactionType.credit_card,
           page_number := 1, bbox := ⟨20, 0, 30, 10⟩, confidence := 85 / 100,
           context := "" }]).confidence_stats
      = { high := 2, medium := 2, low := 0 } := by
  refine ⟨?_, ?_, ?_, by decide⟩
  · rw [get_redaction_summary, foldl_summaryStep_high]
    simp
  · rw [get_redaction_summary, foldl_summaryStep_medium]
    simp
  · rw [get_redaction_summary, foldl_summaryStep_low]
    simp

/-- Claim C10 (confirmed): the summary is internally consistent — the
total equals the input length, the per-type counts sum to it, the per-page
counts sum to it, and the three confidence buckets sum to it. -/
theorem C10_summary_consistency (ms : List PIIMatch) :
    (get_redaction_summary ms).total_redactions = ms.length ∧
    sumVals (get_redaction_summary ms).redactions_by_type = ms.length ∧
    sumVals (get_redaction_summary ms).redactions_by_page = ms.length ∧
    (get_redaction_summary ms).confidence_stats.high
      + (get_redaction_summary ms).confidence_stats.medium
      + (get_redaction_summary ms).confidence_stats.low = ms.length := by
  refine ⟨?_, ?_, ?_, ?_⟩
  · rw [get_redaction_summary, foldl_summaryStep_total]
  · rw [get_redaction_summary, foldl_summaryStep_type]
    simp [sumVals]
  · rw [get_redaction_summary, foldl_summaryStep_page]
    simp [sumVals]
  · rw [get_redaction_summary, foldl_summaryStep_buckets]
    simp

end PdfRedactor
